import Mathlib

/-!
Verification development for the license_fetcher repository (Go).

The program parses a dependency manifest (go.mod, package.json, or
pyproject.toml), queries a public registry per dependency (pkg.go.dev,
registry.npmjs.org, pypi.org) for license and author metadata, and writes a
tabular report.  This file gives a shallow embedding of the manifest parsers
and the pure core of the three registry resolvers, and proves properties of
that embedding.

Modelling conventions:
- Go strings are embedded as `List Char` (`GoStr`); the Go `strings` package
  functions used by the program are re-defined on that type (structurally
  recursive so that the kernel can evaluate them).  The embedded functions
  follow Go byte-wise semantics on the ASCII fragment the program manipulates.
- Network requests and third-party library calls (HTTP transport, HTML
  selector queries of `htmlquery`, JSON/TOML decoding) are external effects:
  they are modelled as explicit inputs (an outcome datatype carrying the
  decoded response, or an oracle record carrying the text of the nodes each
  fixed selector chain found).  Everything the repository itself computes on
  those inputs is embedded from the source of `main.go`.
- A Go run-time panic (an unchecked type assertion) is modelled by `Except`:
  `Except.error GoPanic.panic` marks the aborted computation.
-/

namespace LicenseFetcher

/-- Go strings, embedded as lists of characters. -/
abbrev GoStr := List Char

/-- Coerce a Lean string literal to the embedded string type. -/
def gs (s : String) : GoStr := s.toList

/-- Whitespace test matching the characters `unicode.IsSpace` accepts in the
Latin-1 range (the program only ever trims ASCII whitespace). -/
def isGoSpace (c : Char) : Bool :=
  c = ' ' || c = '\t' || c = '\n' || c = (Char.ofNat 11) || c = (Char.ofNat 12) ||
    c = '\r' || c = (Char.ofNat 0x85) || c = (Char.ofNat 0xA0)

/-- Go `strings.TrimSpace`: drop leading and trailing whitespace. -/
def goTrimSpace (s : GoStr) : GoStr :=
  ((s.dropWhile isGoSpace).reverse.dropWhile isGoSpace).reverse

/-- Go `strings.TrimPrefix(s, pre)`: remove `pre` when it heads `s`. -/
def stripPre (s pre : GoStr) : GoStr :=
  if pre.isPrefixOf s then s.drop pre.length else s

/-- Go `strings.Contains(s, sub)`. -/
def goContains : GoStr → GoStr → Bool
  | [], sub => sub.isEmpty
  | c :: rest, sub => sub.isPrefixOf (c :: rest) || goContains rest sub

/-- Go `strings.HasPrefix(s, pre)`. -/
def goHasPre (s pre : GoStr) : Bool := pre.isPrefixOf s

/-- Go `strings.ToLower` on the ASCII fragment. -/
def goToLower (s : GoStr) : GoStr := s.map Char.toLower

/-- Go `strings.Split(s, sep)` for a one-character separator. -/
def goSplitCh (sep : Char) : GoStr → List GoStr
  | [] => [[]]
  | c :: rest =>
      if c = sep then [] :: goSplitCh sep rest
      else
        match goSplitCh sep rest with
        | [] => [[c]]
        | w :: ws => (c :: w) :: ws

/-- Fueled worker for `goSplit`; the fuel bounds the number of characters
still to consume, so `s.length` fuel always suffices. -/
def goSplitAux (sep : GoStr) : Nat → GoStr → GoStr → List GoStr
  | 0, s, acc => [acc.reverse ++ s]
  | fuel + 1, s, acc =>
      match s with
      | [] => [acc.reverse]
      | c :: rest =>
          if sep.isPrefixOf (c :: rest) then
            acc.reverse :: goSplitAux sep fuel ((c :: rest).drop sep.length) []
          else
            goSplitAux sep fuel rest (c :: acc)

/-- Go `strings.Split(s, sep)` for a non-empty multi-character separator. -/
def goSplit (s sep : GoStr) : List GoStr := goSplitAux sep (s.length + 1) s []

/-- Worker for `goFields`, accumulating the current word. -/
def goFieldsAux : GoStr → GoStr → List GoStr
  | [], acc => if acc.isEmpty then [] else [acc.reverse]
  | c :: rest, acc =>
      if isGoSpace c then
        if acc.isEmpty then goFieldsAux rest [] else acc.reverse :: goFieldsAux rest []
      else goFieldsAux rest (c :: acc)

/-- Go `strings.Fields`: the maximal whitespace-free runs of `s`. -/
def goFields (s : GoStr) : List GoStr := goFieldsAux s []

/-- Go `strings.Join(parts, sep)`. -/
def goJoin (sep : GoStr) : List GoStr → GoStr
  | [] => []
  | [w] => w
  | w :: rest => w ++ sep ++ goJoin sep rest

/-- Lookup in a Go map rendered as an association list (Go map keys are
unique, so first match is the map entry). -/
def goMapLookup (m : List (GoStr × GoStr)) (key : GoStr) : Option GoStr :=
  (m.find? (fun e => e.1 = key)).map (·.2)

/-- Go byte-wise `<` on strings, on the ASCII fragment. -/
def goStrLtb : GoStr → GoStr → Bool
  | [], [] => false
  | [], _ :: _ => true
  | _ :: _, [] => false
  | a :: as, b :: bs =>
      if a.val < b.val then true else if b.val < a.val then false else goStrLtb as bs

/-- Count of occurrences of an element in a list (used to state how the
package-descriptor parser concatenates its two dependency maps). -/
def occurrences {α : Type} [DecidableEq α] (x : α) : List α → Nat
  | [] => 0
  | y :: t => (if y = x then 1 else 0) + occurrences x t

/-- Dependency record, from the `Package` struct of `main.go`. -/
structure Package where
  path : GoStr
  version : GoStr
  goMod : Bool
  pyProject : Bool
deriving DecidableEq

/-- Resolved metadata, from the `PackageInfo` struct of `main.go`. -/
structure PackageInfo where
  name : GoStr
  version : GoStr
  license : GoStr
  licenseURL : GoStr
  author : GoStr
  description : GoStr
  copyright : GoStr
  packageURL : GoStr
  gitHubURL : GoStr
  repositoryType : GoStr
  repository : GoStr
  moduleNameNoVer : GoStr
deriving DecidableEq

/-- Outcome of reading and decoding a manifest: `fileError` stands for an
unreadable file or a file rejected by the external decoder (`modfile.ParseLax`,
`json.Unmarshal`, `toml.Unmarshal`); `ok` carries the decoded document. -/
inductive ManifestInput (α : Type) where
  | fileError
  | ok (doc : α)

/-- Error value surfaced by a parser, mirroring the non-nil Go `error`. -/
inductive ManifestErr where
  | readOrDecode
deriving DecidableEq

/-- Decoded go.mod content: the module path and the require list as
path/version pairs, in file order. -/
structure GoModFile where
  modulePath : GoStr
  require : List (GoStr × GoStr)

/-- Decoded package.json content: the name and the two dependency maps,
rendered as association lists in some iteration order (Go map iteration
order is unspecified). -/
structure PackageJSONFile where
  name : GoStr
  dependencies : List (GoStr × GoStr)
  devDependencies : List (GoStr × GoStr)

/-- Decoded pyproject.toml content: PEP 621 project table, poetry tool
table, and the (unused) build-system requires list. -/
structure PyProjectFile where
  projectName : GoStr
  projectDependencies : List GoStr
  poetryName : GoStr
  poetryDependencies : List (GoStr × GoStr)
  poetryDevDependencies : List (GoStr × GoStr)
  buildRequires : List GoStr

/-- Core of `parseGoMod` after `modfile.ParseLax`: map each requirement to a
`Package` and suffix the module path. -/
def parseGoModPure (f : GoModFile) : List Package × GoStr :=
  (f.require.map (fun r => Package.mk r.1 r.2 true false), f.modulePath ++ gs "-api")

/-- `parseGoMod` of `main.go`: a read or decode failure is returned as the
error; otherwise the pure core runs. -/
def parseGoMod : ManifestInput GoModFile → Except ManifestErr (List Package × GoStr)
  | .fileError => .error .readOrDecode
  | .ok f => .ok (parseGoModPure f)

/-- Record constructor used by `parsePackageJSON` for both maps. -/
def mkNpmPackage (e : GoStr × GoStr) : Package := Package.mk e.1 e.2 false false

/-- Core of `parsePackageJSON` after `json.Unmarshal`: append the records of
the dependencies map and then of the devDependencies map, and suffix the
package name. -/
def parsePackageJSONPure (f : PackageJSONFile) : List Package × GoStr :=
  (f.dependencies.map mkNpmPackage ++ f.devDependencies.map mkNpmPackage,
    f.name ++ gs "-ui")

/-- `parsePackageJSON` of `main.go`. -/
def parsePackageJSON : ManifestInput PackageJSONFile → Except ManifestErr (List Package × GoStr)
  | .fileError => .error .readOrDecode
  | .ok f => .ok (parsePackageJSONPure f)

/-- Poetry map pass of `parsePyProjectToml`: skip the interpreter entry and
entries naming the build tool, emit the rest verbatim. -/
def poetryMapPackages (m : List (GoStr × GoStr)) : List Package :=
  m.filterMap (fun e =>
    if e.1 = gs "python" || goContains e.1 (gs "poetry") then none
    else some (Package.mk e.1 e.2 false true))

/-- PEP 621 list pass of `parsePyProjectToml`: split each free-form entry on
whitespace runs; the first field is the name, the remaining fields re-joined
with single spaces are the constraint; an entry with no fields is dropped. -/
def pep621Packages (deps : List GoStr) : List Package :=
  deps.filterMap (fun dep =>
    match goFields dep with
    | [] => none
    | name :: restParts =>
        some (Package.mk name (goJoin (gs " ") restParts) false true))

/-- Core of `parsePyProjectToml` after `toml.Unmarshal`: poetry dependencies,
then poetry dev-dependencies, then the PEP 621 list; project name prefers the
poetry name, then the PEP 621 name, then a fixed literal. -/
def parsePyProjectTomlPure (f : PyProjectFile) : List Package × GoStr :=
  let pkgs := poetryMapPackages f.poetryDependencies ++
      poetryMapPackages f.poetryDevDependencies ++
      pep621Packages f.projectDependencies
  let projectName :=
    if !f.poetryName.isEmpty then f.poetryName
    else if !f.projectName.isEmpty then f.projectName
    else gs "python-project"
  (pkgs, projectName ++ gs "-py")

/-- `parsePyProjectToml` of `main.go`. -/
def parsePyProjectToml : ManifestInput PyProjectFile → Except ManifestErr (List Package × GoStr)
  | .fileError => .error .readOrDecode
  | .ok f => .ok (parsePyProjectTomlPure f)

/-- Operator-stripping chain of `getPyPI_Metadata` (lines 707-713): the seven
`TrimPrefix` calls in source order, each acting on the value the previous one
left. -/
def pypiOpChain (v : GoStr) : GoStr :=
  stripPre (stripPre (stripPre (stripPre (stripPre (stripPre (stripPre v
    (gs ">=")) (gs "==")) (gs ">")) (gs "<=")) (gs "<")) (gs "~=")) (gs "^")

/-- Version cleaning of `getPyPI_Metadata` (lines 705-715): trim surrounding
whitespace, run the operator chain, then keep the part before the first comma
and then the part before the first space. -/
def pypiCleanVersion (v : GoStr) : GoStr :=
  let v := goTrimSpace v
  let v := pypiOpChain v
  let v := (goSplitCh ',' v).headD []
  (goSplitCh ' ' v).headD []

/-- The seven operators the PyPI cleaning strips, in chain order. -/
def pypiOps : List GoStr :=
  [gs ">=", gs "==", gs ">", gs "<=", gs "<", gs "~=", gs "^"]

/-- Version cleaning of `getNPMMetadata` (line 1053): strip a leading caret,
then a leading tilde; nothing else. -/
def npmCleanVersion (v : GoStr) : GoStr := stripPre (stripPre v (gs "^")) (gs "~")

/-- Registry URL built by `getNPMMetadata` (line 1071). -/
def npmRequestURL (pkg : Package) : GoStr :=
  gs "https://registry.npmjs.org/" ++ pkg.path ++ gs "/" ++ npmCleanVersion pkg.version

/-- Registry URL built by `getPyPI_Metadata` (line 734). -/
def pypiRequestURL (pkg : Package) : GoStr :=
  gs "https://pypi.org/pypi/" ++ pkg.path ++ gs "/json"

/-- Exact-match table of `getPyPI_Metadata` (the `switch` on the classifier
license name, lines 776-795); unknown names pass through. -/
def classifierTable (n : GoStr) : GoStr :=
  if n = gs "Apache Software License" then gs "Apache-2.0"
  else if n = gs "BSD License" then gs "BSD-3-Clause"
  else if n = gs "MIT License" then gs "MIT"
  else if n = gs "Mozilla Public License 2.0 (MPL 2.0)" then gs "MPL-2.0"
  else if n = gs "GNU General Public License v3 (GPLv3)" then gs "GPL-3.0"
  else if n = gs "GNU General Public License v2 (GPLv2)" then gs "GPL-2.0"
  else if n = gs "GNU Lesser General Public License v3 (LGPLv3)" then gs "LGPL-3.0"
  else if n = gs "GNU Lesser General Public License v2 (LGPLv2)" then gs "LGPL-2.0"
  else n

/-- Substring fallback of `getPyPI_Metadata` on the free-text license field
(lines 806-818): Apache, MIT, BSD families, then GPL disambiguated by the
presence of a 3 or a 2; otherwise pass through. -/
def standardizeLicenseText (t : GoStr) : GoStr :=
  if goContains t (gs "Apache") then gs "Apache-2.0"
  else if goContains t (gs "MIT") then gs "MIT"
  else if goContains t (gs "BSD") then gs "BSD-3-Clause"
  else if goContains t (gs "GPL") && goContains t (gs "3") then gs "GPL-3.0"
  else if goContains t (gs "GPL") && goContains t (gs "2") then gs "GPL-2.0"
  else t

/-- The standardization step as the claim frames it: the exact-match table
first (its default branch replaced by the fallback), then the substring
fallback, else pass-through.  In the source the two stages are the classifier
path and the license-field path of `getPyPI_Metadata`, tried in that order. -/
def standardizeLicense (s : GoStr) : GoStr :=
  if s = gs "Apache Software License" then gs "Apache-2.0"
  else if s = gs "BSD License" then gs "BSD-3-Clause"
  else if s = gs "MIT License" then gs "MIT"
  else if s = gs "Mozilla Public License 2.0 (MPL 2.0)" then gs "MPL-2.0"
  else if s = gs "GNU General Public License v3 (GPLv3)" then gs "GPL-3.0"
  else if s = gs "GNU General Public License v2 (GPLv2)" then gs "GPL-2.0"
  else if s = gs "GNU Lesser General Public License v3 (LGPLv3)" then gs "LGPL-3.0"
  else if s = gs "GNU Lesser General Public License v2 (LGPLv2)" then gs "LGPL-2.0"
  else standardizeLicenseText s

/-- Base of every constructed license URL. -/
def licenseURLBase : GoStr := gs "https://licenses.nuget.org/"

/-- A decoded JSON value, for the npm `author` field which is declared `any`
in the source. -/
inductive JsonValue where
  | str (s : GoStr)
  | num (n : Int)
  | bool (b : Bool)
  | null
  | arr (xs : List JsonValue)
  | obj (fields : List (GoStr × JsonValue))

/-- Marker for an aborted Go computation (run-time panic). -/
inductive GoPanic where
  | panic
deriving DecidableEq

/-- Go type assertion `x.(string)` without the comma-ok form: panics unless
the dynamic type is string. -/
def asGoString : JsonValue → Except GoPanic GoStr
  | .str s => .ok s
  | _ => .error .panic

/-- Field access on a decoded JSON object (`author["name"]` on a
`map[string]any`). -/
def jsonObjGet (fields : List (GoStr × JsonValue)) (key : GoStr) : Option JsonValue :=
  (fields.find? (fun e => e.1 = key)).map (·.2)

/-- Author extraction of `getNPMMetadata` (lines 1106-1114): a JSON object
uses its name entry, else its email entry, through unchecked `.(string)`
assertions; a non-empty JSON string is used directly; anything else leaves
the author empty. -/
def npmAuthorField : JsonValue → Except GoPanic GoStr
  | .obj fields =>
      match jsonObjGet fields (gs "name") with
      | some v => asGoString v
      | none =>
          match jsonObjGet fields (gs "email") with
          | some v => asGoString v
          | none => .ok []
  | .str s => .ok s
  | _ => .ok []

/-- Decoded npm registry document (the anonymous struct of lines 1079-1093). -/
structure NpmDoc where
  license : GoStr
  licenses : List GoStr
  author : JsonValue
  maintainers : List (List (GoStr × GoStr))
  description : GoStr
  repositoryURL : GoStr
  homepage : GoStr
  readme : GoStr

/-- Outcome of the npm registry request: `failed` is a request error, a
transport error or a non-200 status; `decodeError` is a 200 response whose
body the JSON decoder rejects; `ok` carries the decoded document. -/
inductive NpmFetch where
  | failed
  | decodeError
  | ok (doc : NpmDoc)

/-- Identity-only record `getNPMMetadata` starts from (lines 1045-1050). -/
def initNpmInfo (pkg : Package) : PackageInfo :=
  { name := pkg.path, version := pkg.version, license := [], licenseURL := [],
    author := [], description := [], copyright := [], packageURL := [],
    gitHubURL := [], repositoryType := gs "npm", repository := [],
    moduleNameNoVer := pkg.path }

/-- First readme line containing copyright (case-insensitive) or the sign ©
(lines 1140-1146). -/
def findCopyrightLine (lines : List GoStr) : Option GoStr :=
  lines.find? (fun line =>
    goContains (goToLower line) (gs "copyright") || goContains line (gs "©"))

/-- `getNPMMetadata` of `main.go` given the request outcome.  The unchecked
type assertions in the author branch make the whole call able to panic, hence
the `Except` result. -/
def getNPMMetadata (pkg : Package) (f : NpmFetch) : Except GoPanic PackageInfo :=
  let info := initNpmInfo pkg
  match f with
  | .failed => .ok info
  | .decodeError => .ok info
  | .ok doc =>
      let info :=
        if !doc.license.isEmpty then
          { info with license := doc.license,
                      licenseURL := licenseURLBase ++ doc.license }
        else
          match doc.licenses with
          | [] => info
          | t :: _ => { info with license := t, licenseURL := licenseURLBase ++ t }
      match npmAuthorField doc.author with
      | .error e => .error e
      | .ok a =>
          let info := { info with author := a }
          let info :=
            if info.author.isEmpty then
              match doc.maintainers with
              | [] => info
              | m :: _ =>
                  match goMapLookup m (gs "name") with
                  | some n => { info with author := n }
                  | none =>
                      match goMapLookup m (gs "email") with
                      | some e => { info with author := e }
                      | none => info
            else info
          let info := { info with description := doc.description }
          let info :=
            if !doc.repositoryURL.isEmpty then
              { info with repository := doc.repositoryURL,
                          gitHubURL := doc.repositoryURL }
            else if !doc.homepage.isEmpty then
              { info with repository := doc.homepage }
            else info
          let info :=
            if !info.license.isEmpty then
              { info with copyright := info.license ++ gs " Copyright" }
            else if !doc.readme.isEmpty then
              match findCopyrightLine (goSplitCh '\n' doc.readme) with
              | some line => { info with copyright := goTrimSpace line }
              | none => info
            else info
          .ok info

/-- One release file entry of a PyPI release list. -/
structure PyPIRelease where
  pythonVersion : GoStr
  uploadTime : GoStr

/-- Decoded PyPI registry document (the anonymous struct of lines 746-765). -/
structure PyPIDoc where
  author : GoStr
  authorEmail : GoStr
  classifiers : List GoStr
  description : GoStr
  summary : GoStr
  homePage : GoStr
  license : GoStr
  projectUrls : List (GoStr × GoStr)
  releases : List (GoStr × List PyPIRelease)

/-- Outcome of the PyPI registry request, as for npm. -/
inductive PyPIFetch where
  | failed
  | decodeError
  | ok (doc : PyPIDoc)

/-- Identity-only record `getPyPI_Metadata` starts from (lines 698-703). -/
def initPyPIInfo (pkg : Package) : PackageInfo :=
  { name := pkg.path, version := pkg.version, license := [], licenseURL := [],
    author := [], description := [], copyright := [], packageURL := [],
    gitHubURL := [], repositoryType := gs "pypi", repository := [],
    moduleNameNoVer := pkg.path }

/-- Classifier scan of `getPyPI_Metadata` (lines 769-800): the first
classifier with the license marker and at least three segments fixes the
license as the table image of its last segment. -/
def pypiClassifierLicense : List GoStr → Option GoStr
  | [] => none
  | c :: rest =>
      if goHasPre c (gs "License :: ") then
        let parts := goSplit c (gs " :: ")
        if parts.length ≥ 3 then some (classifierTable ((parts.getLast?).getD []))
        else pypiClassifierLicense rest
      else pypiClassifierLicense rest

/-- Project-URLs loop of `getPyPI_Metadata` (lines 843-853), acting on the
current source and repository links: a URL containing github (lowercased)
becomes the source link and ends the whole scan; otherwise a key containing
source or repository overwrites the repository link and the scan goes on. -/
def scanProjectUrls : List (GoStr × GoStr) → GoStr → GoStr → GoStr × GoStr
  | [], gh, repo => (gh, repo)
  | (key, url) :: rest, gh, repo =>
      if goContains (goToLower url) (gs "github") then (url, repo)
      else if goContains (goToLower key) (gs "source") ||
          goContains (goToLower key) (gs "repository") then
        scanProjectUrls rest gh url
      else scanProjectUrls rest gh repo

/-- Latest-release heuristic of `getPyPI_Metadata` (lines 862-876): fold over
the releases map keeping the version whose first file has the byte-wise
greatest upload-time string. -/
def latestReleaseVersion (rels : List (GoStr × List PyPIRelease)) : GoStr :=
  (rels.foldl (fun acc e =>
      match e.2 with
      | [] => acc
      | r :: _ => if goStrLtb acc.2 r.uploadTime then (e.1, r.uploadTime) else acc)
    ([], [])).1

/-- `getPyPI_Metadata` of `main.go` given the request outcome. -/
def getPyPI_Metadata (pkg : Package) (f : PyPIFetch) : PackageInfo :=
  let version := pypiCleanVersion pkg.version
  let info := initPyPIInfo pkg
  match f with
  | .failed => info
  | .decodeError => info
  | .ok doc =>
      let info :=
        match pypiClassifierLicense doc.classifiers with
        | some lic =>
            { info with license := lic, licenseURL := licenseURLBase ++ lic }
        | none => info
      let info :=
        if info.license.isEmpty && !doc.license.isEmpty then
          let lic := standardizeLicenseText doc.license
          { info with license := lic, licenseURL := licenseURLBase ++ lic }
        else info
      let info :=
        if !doc.author.isEmpty then { info with author := doc.author }
        else if !doc.authorEmail.isEmpty then { info with author := doc.authorEmail }
        else info
      let info :=
        if !doc.summary.isEmpty then { info with description := doc.summary }
        else if !doc.description.isEmpty then { info with description := doc.description }
        else info
      let info :=
        if !doc.homePage.isEmpty then
          { info with repository := doc.homePage, gitHubURL := doc.homePage }
        else info
      let scanned := scanProjectUrls doc.projectUrls info.gitHubURL info.repository
      let info := { info with gitHubURL := scanned.1, repository := scanned.2 }
      let info :=
        if !info.license.isEmpty then
          { info with copyright := info.license ++ gs " Copyright" }
        else info
      let info :=
        if version.isEmpty && doc.releases.length > 0 then
          let latest := latestReleaseVersion doc.releases
          if !latest.isEmpty then { info with version := latest } else info
        else if !version.isEmpty then { info with version := version }
        else info
      info

/-- Oracle for the fixed `htmlquery` selector chains `getGoModMetadata` runs
on the fetched documentation page: for each extracted datum, the inner text
(or href) of the node the chain found, `none` when every selector missed. -/
structure GoDevDoc where
  licenseHit : Option GoStr
  descriptionHit : Option GoStr
  repoHits : List (Option GoStr)
  authorHits : List (Option GoStr)
  copyrightHit : Option GoStr

/-- Outcome of the documentation-page request: `failed` is a request error, a
transport error or a non-200 status; `parseError` is a 200 response the HTML
reader rejects; `parsed` carries the selector oracle for the document. -/
inductive GoDevFetch where
  | failed
  | parseError
  | parsed (doc : GoDevDoc)

/-- Identity record `getGoModMetadata` starts from (lines 887-892), with the
constructed module-proxy info URL. -/
def initGoModInfo (pkg : Package) : PackageInfo :=
  { name := pkg.path, version := pkg.version, license := [], licenseURL := [],
    author := [], description := [], copyright := [],
    packageURL := pkg.path ++ gs "/@v/" ++ pkg.version ++ gs ".info",
    gitHubURL := [], repositoryType := gs "go", repository := [],
    moduleNameNoVer := [] }

/-- Repository-selector loop of `getGoModMetadata` (lines 963-972): first
href that is non-empty and does not point back at the documentation host. -/
def findRepoURL : List (Option GoStr) → GoStr
  | [] => []
  | none :: rest => findRepoURL rest
  | some href :: rest =>
      if !href.isEmpty && !goContains href (gs "pkg.go.dev") then href
      else findRepoURL rest

/-- Author-selector loop of `getGoModMetadata` (lines 989-999): first trimmed
text that is non-empty, mentions neither license nor copyright when
lowercased, and is under 100 characters. -/
def findAuthorHit : List (Option GoStr) → GoStr
  | [] => []
  | none :: rest => findAuthorHit rest
  | some t :: rest =>
      let a := goTrimSpace t
      if !a.isEmpty && !goContains (goToLower a) (gs "license") &&
          !goContains (goToLower a) (gs "copyright") && a.length < 100 then a
      else findAuthorHit rest

/-- License step of the page scrape (lines 925-938). -/
def applyLicenseStep (hit : Option GoStr) (info : PackageInfo) : PackageInfo :=
  match hit with
  | none => info
  | some t =>
      let txt := goTrimSpace t
      if !goContains txt (gs "not legal advice") && !txt.isEmpty then
        { info with license := txt, licenseURL := licenseURLBase ++ txt }
      else info

/-- Description step of the page scrape (lines 941-953). -/
def applyDescStep (hit : Option GoStr) (info : PackageInfo) : PackageInfo :=
  match hit with
  | none => info
  | some t => { info with description := goTrimSpace t }

/-- Repository step of the page scrape (lines 956-972). -/
def applyRepoStep (hits : List (Option GoStr)) (info : PackageInfo) : PackageInfo :=
  let url := findRepoURL hits
  if !url.isEmpty then { info with gitHubURL := url } else info

/-- GitHub-URL synthesis of the page scrape (lines 974-977): with no link
found and a module path holding the hosting marker, prepend the scheme. -/
def applyGhSynthStep (path : GoStr) (info : PackageInfo) : PackageInfo :=
  if info.gitHubURL.isEmpty && goContains path (gs "github.com/") then
    { info with gitHubURL := gs "https://" ++ path }
  else info

/-- Author-selector step of the page scrape (lines 980-999). -/
def applyAuthorSelStep (hits : List (Option GoStr)) (info : PackageInfo) : PackageInfo :=
  let a := findAuthorHit hits
  if !a.isEmpty then { info with author := a } else info

/-- Author-from-path step of the page scrape (lines 1002-1017): with no
author yet, use the second path segment for hosted repositories, else the
first segment of any slashed path. -/
def applyAuthorPathStep (path : GoStr) (info : PackageInfo) : PackageInfo :=
  if !info.author.isEmpty then info
  else
    let info :=
      if goContains path (gs "github.com/") then
        let parts := goSplitCh '/' path
        if parts.length ≥ 2 then { info with author := parts.getD 1 [] } else info
      else info
    if info.author.isEmpty && goContains path (gs "/") then
      let parts := goSplitCh '/' path
      if parts.length ≥ 2 then { info with author := parts.getD 0 [] } else info
    else info

/-- Copyright step of the page scrape (lines 1020-1037). -/
def applyCopyrightStep (hit : Option GoStr) (info : PackageInfo) : PackageInfo :=
  if !info.license.isEmpty then
    { info with copyright := info.license ++ gs " Copyright" }
  else
    match hit with
    | none => info
    | some t =>
        let c := goTrimSpace t
        if !c.isEmpty then { info with copyright := c } else info

/-- Page scrape of `getGoModMetadata` (lines 922-1038), as the source-ordered
composition of the per-datum steps. -/
def goModScrape (pkg : Package) (doc : GoDevDoc) : PackageInfo :=
  applyCopyrightStep doc.copyrightHit
    (applyAuthorPathStep pkg.path
      (applyAuthorSelStep doc.authorHits
        (applyGhSynthStep pkg.path
          (applyRepoStep doc.repoHits
            (applyDescStep doc.descriptionHit
              (applyLicenseStep doc.licenseHit (initGoModInfo pkg)))))))

/-- `getGoModMetadata` of `main.go` given the request outcome. -/
def getGoModMetadata (pkg : Package) (f : GoDevFetch) : PackageInfo :=
  match f with
  | .failed => initGoModInfo pkg
  | .parseError => initGoModInfo pkg
  | .parsed doc => goModScrape pkg doc

/-! Spec-side definitions, written from the wording of the claims they are
compared against. -/

/-- Modelled from the claim wording of C3: the remainder of a constraint up
to the first comma or space. -/
def specVersionRemainder (s : GoStr) : GoStr :=
  s.takeWhile (fun c => c != ',' && c != ' ')

/-- Modelled from the claim wording of C2: no field beyond the echoed name,
version and ecosystem tag is populated. -/
def identityFieldsOnly (i : PackageInfo) : Bool :=
  i.license.isEmpty && i.licenseURL.isEmpty && i.author.isEmpty &&
    i.description.isEmpty && i.copyright.isEmpty && i.packageURL.isEmpty &&
    i.gitHubURL.isEmpty && i.repository.isEmpty && i.moduleNameNoVer.isEmpty

/-- Modelled from the amended claim wording of C9: the repository link the
key check alone would leave behind, namely the value of the last entry whose
key contains source or repository. -/
def repoKeyScan (entries : List (GoStr × GoStr)) (repo : GoStr) : GoStr :=
  entries.foldl (fun r e =>
    if goContains (goToLower e.1) (gs "source") ||
        goContains (goToLower e.1) (gs "repository") then e.2 else r) repo

/-! Helper lemmas. -/

lemma gsGE : gs ">=" = ['>', '='] := rfl

lemma gsEQ2 : gs "==" = ['=', '='] := rfl

lemma gsGT : gs ">" = ['>'] := rfl

lemma gsLE : gs "<=" = ['<', '='] := rfl

lemma gsLT : gs "<" = ['<'] := rfl

lemma gsTE : gs "~=" = ['~', '='] := rfl

lemma gsCaret : gs "^" = ['^'] := rfl

lemma gsEQ1 : gs "=" = ['='] := rfl

lemma stripPre_append (p r : GoStr) : stripPre (p ++ r) p = r := by
  have h : p.isPrefixOf (p ++ r) = true := List.isPrefixOf_iff_prefix.mpr ⟨r, rfl⟩
  simp [stripPre, h]

lemma stripPre_of_ne (s p : GoStr) (h : p.isPrefixOf s = false) : stripPre s p = s := by
  simp [stripPre, h]

/-- The operator chain removes exactly one leading operator when the
remainder does not itself look like the start of an operator. -/
lemma pypiOpChain_strips (op rest : GoStr)
    (hop : op ∈ pypiOps)
    (hns : ∀ o ∈ pypiOps, o.isPrefixOf rest = false)
    (heq : (gs "=").isPrefixOf rest = false) :
    pypiOpChain (op ++ rest) = rest := by
  have h2 := hns (gs "==") (by simp [pypiOps])
  have h3 := hns (gs ">") (by simp [pypiOps])
  have h4 := hns (gs "<=") (by simp [pypiOps])
  have h5 := hns (gs "<") (by simp [pypiOps])
  have h6 := hns (gs "~=") (by simp [pypiOps])
  have h7 := hns (gs "^") (by simp [pypiOps])
  simp only [gsGE, gsEQ2, gsGT, gsLE, gsLT, gsTE, gsCaret, gsEQ1]
    at h2 h3 h4 h5 h6 h7 heq
  simp only [pypiOps, List.mem_cons, List.not_mem_nil, or_false,
    gsGE, gsEQ2, gsGT, gsLE, gsLT, gsTE, gsCaret] at hop
  rcases hop with rfl | rfl | rfl | rfl | rfl | rfl | rfl
  · rw [show pypiOpChain (['>', '='] ++ rest)
        = stripPre (stripPre (stripPre (stripPre (stripPre (stripPre
            (stripPre (['>', '='] ++ rest) ['>', '=']) ['=', '=']) ['>'])
            ['<', '=']) ['<']) ['~', '=']) ['^'] from by
        simp only [pypiOpChain, gsGE, gsEQ2, gsGT, gsLE, gsLT, gsTE, gsCaret]]
    rw [stripPre_append, stripPre_of_ne _ _ h2, stripPre_of_ne _ _ h3,
      stripPre_of_ne _ _ h4, stripPre_of_ne _ _ h5, stripPre_of_ne _ _ h6,
      stripPre_of_ne _ _ h7]
  · rw [show pypiOpChain (['=', '='] ++ rest)
        = stripPre (stripPre (stripPre (stripPre (stripPre (stripPre
            (stripPre (['=', '='] ++ rest) ['>', '=']) ['=', '=']) ['>'])
            ['<', '=']) ['<']) ['~', '=']) ['^'] from by
        simp only [pypiOpChain, gsGE, gsEQ2, gsGT, gsLE, gsLT, gsTE, gsCaret]]
    rw [stripPre_of_ne (['=', '='] ++ rest) _ (by simp [List.isPrefixOf]),
      stripPre_append, stripPre_of_ne _ _ h3, stripPre_of_ne _ _ h4,
      stripPre_of_ne _ _ h5, stripPre_of_ne _ _ h6, stripPre_of_ne _ _ h7]
  · rw [show pypiOpChain (['>'] ++ rest)
        = stripPre (stripPre (stripPre (stripPre (stripPre (stripPre
            (stripPre (['>'] ++ rest) ['>', '=']) ['=', '=']) ['>'])
            ['<', '=']) ['<']) ['~', '=']) ['^'] from by
        simp only [pypiOpChain, gsGE, gsEQ2, gsGT, gsLE, gsLT, gsTE, gsCaret]]
    rw [stripPre_of_ne (['>'] ++ rest) _ (by simp [List.isPrefixOf, heq]),
      stripPre_of_ne (['>'] ++ rest) _ (by simp [List.isPrefixOf]),
      stripPre_append, stripPre_of_ne _ _ h4, stripPre_of_ne _ _ h5,
      stripPre_of_ne _ _ h6, stripPre_of_ne _ _ h7]
  · rw [show pypiOpChain (['<', '='] ++ rest)
        = stripPre (stripPre (stripPre (stripPre (stripPre (stripPre
            (stripPre (['<', '='] ++ rest) ['>', '=']) ['=', '=']) ['>'])
            ['<', '=']) ['<']) ['~', '=']) ['^'] from by
        simp only [pypiOpChain, gsGE, gsEQ2, gsGT, gsLE, gsLT, gsTE, gsCaret]]
    rw [stripPre_of_ne (['<', '='] ++ rest) _ (by simp [List.isPrefixOf]),
      stripPre_of_ne (['<', '='] ++ rest) _ (by simp [List.isPrefixOf]),
      stripPre_of_ne (['<', '='] ++ rest) _ (by simp [List.isPrefixOf]),
      stripPre_append, stripPre_of_ne _ _ h5, stripPre_of_ne _ _ h6,
      stripPre_of_ne _ _ h7]
  · rw [show pypiOpChain (['<'] ++ rest)
        = stripPre (stripPre (stripPre (stripPre (stripPre (stripPre
            (stripPre (['<'] ++ rest) ['>', '=']) ['=', '=']) ['>'])
            ['<', '=']) ['<']) ['~', '=']) ['^'] from by
        simp only [pypiOpChain, gsGE, gsEQ2, gsGT, gsLE, gsLT, gsTE, gsCaret]]
    rw [stripPre_of_ne (['<'] ++ rest) _ (by simp [List.isPrefixOf]),
      stripPre_of_ne (['<'] ++ rest) _ (by simp [List.isPrefixOf]),
      stripPre_of_ne (['<'] ++ rest) _ (by simp [List.isPrefixOf]),
      stripPre_of_ne (['<'] ++ rest) _ (by simp [List.isPrefixOf, heq]),
      stripPre_append, stripPre_of_ne _ _ h6, stripPre_of_ne _ _ h7]
  · rw [show pypiOpChain (['~', '='] ++ rest)
        = stripPre (stripPre (stripPre (stripPre (stripPre (stripPre
            (stripPre (['~', '='] ++ rest) ['>', '=']) ['=', '=']) ['>'])
            ['<', '=']) ['<']) ['~', '=']) ['^'] from by
        simp only [pypiOpChain, gsGE, gsEQ2, gsGT, gsLE, gsLT, gsTE, gsCaret]]
    rw [stripPre_of_ne (['~', '='] ++ rest) _ (by simp [List.isPrefixOf]),
      stripPre_of_ne (['~', '='] ++ rest) _ (by simp [List.isPrefixOf]),
      stripPre_of_ne (['~', '='] ++ rest) _ (by simp [List.isPrefixOf]),
      stripPre_of_ne (['~', '='] ++ rest) _ (by simp [List.isPrefixOf]),
      stripPre_of_ne (['~', '='] ++ rest) _ (by simp [List.isPrefixOf]),
      stripPre_append, stripPre_of_ne _ _ h7]
  · rw [show pypiOpChain (['^'] ++ rest)
        = stripPre (stripPre (stripPre (stripPre (stripPre (stripPre
            (stripPre (['^'] ++ rest) ['>', '=']) ['=', '=']) ['>'])
            ['<', '=']) ['<']) ['~', '=']) ['^'] from by
        simp only [pypiOpChain, gsGE, gsEQ2, gsGT, gsLE, gsLT, gsTE, gsCaret]]
    rw [stripPre_of_ne (['^'] ++ rest) _ (by simp [List.isPrefixOf]),
      stripPre_of_ne (['^'] ++ rest) _ (by simp [List.isPrefixOf]),
      stripPre_of_ne (['^'] ++ rest) _ (by simp [List.isPrefixOf]),
      stripPre_of_ne (['^'] ++ rest) _ (by simp [List.isPrefixOf]),
      stripPre_of_ne (['^'] ++ rest) _ (by simp [List.isPrefixOf]),
      stripPre_of_ne (['^'] ++ rest) _ (by simp [List.isPrefixOf]),
      stripPre_append]

lemma goSplitCh_ne_nil (sep : Char) (s : GoStr) : goSplitCh sep s ≠ [] := by
  induction s with
  | nil => simp [goSplitCh]
  | cons c rest ih =>
    simp only [goSplitCh]
    split
    · simp
    · cases h : goSplitCh sep rest <;> simp

lemma goSplitCh_headD (sep : Char) (s : GoStr) :
    (goSplitCh sep s).headD [] = s.takeWhile (fun c => c != sep) := by
  induction s with
  | nil => rfl
  | cons c rest ih =>
    by_cases hc : c = sep
    · subst hc
      simp [goSplitCh, List.takeWhile]
    · simp only [goSplitCh, if_neg hc]
      cases h : goSplitCh sep rest with
      | nil => exact absurd h (goSplitCh_ne_nil sep rest)
      | cons w ws =>
        rw [h] at ih
        simp only [List.headD] at ih
        have hb : (c != sep) = true := by simp [hc]
        simp [List.takeWhile, hb, ih]

lemma takeWhile_comma_space (s : GoStr) :
    (s.takeWhile (fun c => c != ',')).takeWhile (fun c => c != ' ')
      = specVersionRemainder s := by
  induction s with
  | nil => rfl
  | cons c rest ih =>
    simp only [specVersionRemainder] at ih ⊢
    by_cases h1 : c = ','
    · subst h1
      simp [List.takeWhile]
    · by_cases h2 : c = ' '
      · subst h2
        have e2 : ((' ' : Char) != ',') = true := by decide
        have e3 : ((' ' : Char) != ' ') = false := by decide
        simp [List.takeWhile, e2, e3]
      · have b1 : (c != ',') = true := by simp [h1]
        have b2 : (c != ' ') = true := by simp [h2]
        simp [List.takeWhile, b1, b2, ih]

/-- Every word `goFieldsAux` emits is non-empty: words are only emitted from
a non-empty accumulator. -/
lemma goFieldsAux_mem_ne_nil (s : GoStr) :
    ∀ (acc w : GoStr), w ∈ goFieldsAux s acc → w ≠ [] := by
  induction s with
  | nil =>
    intro acc w hw
    simp only [goFieldsAux] at hw
    split at hw
    · simp at hw
    · next hne =>
      simp only [List.mem_singleton] at hw
      subst hw
      simpa [List.isEmpty_iff] using hne
  | cons c rest ih =>
    intro acc w hw
    simp only [goFieldsAux] at hw
    split at hw
    · split at hw
      · exact ih [] w hw
      · next hne =>
        rcases List.mem_cons.mp hw with rfl | hmem
        · simpa [List.isEmpty_iff] using hne
        · exact ih [] w hmem
    · exact ih (c :: acc) w hw

lemma occurrences_append {α : Type} [DecidableEq α] (x : α) (l₁ l₂ : List α) :
    occurrences x (l₁ ++ l₂) = occurrences x l₁ + occurrences x l₂ := by
  induction l₁ with
  | nil => simp [occurrences]
  | cons y t ih => simp [occurrences, ih, Nat.add_assoc]

lemma mkNpmPackage_inj {a b : GoStr × GoStr} (h : mkNpmPackage a = mkNpmPackage b) :
    a = b := by
  cases a
  cases b
  simpa [mkNpmPackage, Package.mk.injEq, Prod.ext_iff] using h

lemma occurrences_map_mkNpm (e : GoStr × GoStr) (l : List (GoStr × GoStr)) :
    occurrences (mkNpmPackage e) (l.map mkNpmPackage) = occurrences e l := by
  induction l with
  | nil => rfl
  | cons y t ih =>
    by_cases h : y = e
    · subst h
      simp [occurrences, ih]
    · have hne : ¬ mkNpmPackage y = mkNpmPackage e := fun hc => h (mkNpmPackage_inj hc)
      simp [occurrences, ih, h, hne]

/-- When no project URL mentions github, the scan reduces to the key check
over all entries. -/
lemma scanProjectUrls_no_github (entries : List (GoStr × GoStr)) (gh repo : GoStr)
    (h : ∀ e ∈ entries, goContains (goToLower e.2) (gs "github") = false) :
    scanProjectUrls entries gh repo = (gh, repoKeyScan entries repo) := by
  induction entries generalizing repo with
  | nil => rfl
  | cons e t ih =>
    obtain ⟨k, u⟩ := e
    have hu := h (k, u) (List.mem_cons_self _ _)
    have ht : ∀ x ∈ t, goContains (goToLower x.2) (gs "github") = false :=
      fun x hx => h x (List.mem_cons_of_mem _ hx)
    simp only [scanProjectUrls, repoKeyScan, List.foldl_cons] at *
    rw [hu]
    by_cases hk : (goContains (goToLower k) (gs "source") ||
        goContains (goToLower k) (gs "repository")) = true
    · simp only [hk, if_true, Bool.false_eq_true, if_false]
      exact ih u ht
    · simp only [Bool.not_eq_true] at hk
      simp only [hk, Bool.false_eq_true, if_false]
      exact ih repo ht

/-- The scan stops at the first entry whose URL mentions github, returning
that URL as source link and the key-check result of the earlier entries as
repository link; later entries are never visited. -/
lemma scanProjectUrls_stops (pre : List (GoStr × GoStr)) (key url : GoStr)
    (rest : List (GoStr × GoStr)) (gh repo : GoStr)
    (hpre : ∀ e ∈ pre, goContains (goToLower e.2) (gs "github") = false)
    (hurl : goContains (goToLower url) (gs "github") = true) :
    scanProjectUrls (pre ++ (key, url) :: rest) gh repo
      = (url, repoKeyScan pre repo) := by
  induction pre generalizing repo with
  | nil =>
    simp only [List.nil_append, scanProjectUrls, hurl, if_true, repoKeyScan,
      List.foldl_nil]
  | cons e t ih =>
    obtain ⟨k, u⟩ := e
    have hu := hpre (k, u) (List.mem_cons_self _ _)
    have ht : ∀ x ∈ t, goContains (goToLower x.2) (gs "github") = false :=
      fun x hx => hpre x (List.mem_cons_of_mem _ hx)
    simp only [List.cons_append, scanProjectUrls, repoKeyScan, List.foldl_cons]
    rw [hu]
    by_cases hk : (goContains (goToLower k) (gs "source") ||
        goContains (goToLower k) (gs "repository")) = true
    · simp only [hk, if_true, Bool.false_eq_true, if_false]
      exact ih u ht
    · simp only [Bool.not_eq_true] at hk
      simp only [hk, Bool.false_eq_true, if_false]
      exact ih repo ht

lemma applyLicenseStep_gitHubURL (h : Option GoStr) (i : PackageInfo) :
    (applyLicenseStep h i).gitHubURL = i.gitHubURL := by
  cases h with
  | none => rfl
  | some t =>
    simp only [applyLicenseStep]
    split <;> rfl

lemma applyDescStep_gitHubURL (h : Option GoStr) (i : PackageInfo) :
    (applyDescStep h i).gitHubURL = i.gitHubURL := by
  cases h <;> rfl

lemma applyAuthorSelStep_gitHubURL (hits : List (Option GoStr)) (i : PackageInfo) :
    (applyAuthorSelStep hits i).gitHubURL = i.gitHubURL := by
  simp only [applyAuthorSelStep]
  split <;> rfl

lemma applyAuthorPathStep_gitHubURL (p : GoStr) (i : PackageInfo) :
    (applyAuthorPathStep p i).gitHubURL = i.gitHubURL := by
  simp only [applyAuthorPathStep]
  split_ifs <;> rfl

lemma applyCopyrightStep_gitHubURL (h : Option GoStr) (i : PackageInfo) :
    (applyCopyrightStep h i).gitHubURL = i.gitHubURL := by
  simp only [applyCopyrightStep]
  split
  · rfl
  · cases h with
    | none => rfl
    | some t =>
      simp only
      split <;> rfl

lemma applyRepoStep_of_none (hits : List (Option GoStr)) (i : PackageInfo)
    (h : findRepoURL hits = []) : applyRepoStep hits i = i := by
  simp [applyRepoStep, h]

lemma applyGhSynthStep_sets (p : GoStr) (i : PackageInfo)
    (h1 : i.gitHubURL = []) (h2 : goContains p (gs "github.com/") = true) :
    (applyGhSynthStep p i).gitHubURL = gs "https://" ++ p := by
  simp [applyGhSynthStep, h1, h2]

/-! Claim theorems. -/

/-- C1: the claim says every resolver call returns a MetadataRecord and never
raises, in particular when the author object of the npm response carries a
non-string name or email.  The code refutes it: the unchecked type assertion
in the author branch of `getNPMMetadata` panics on the decoded response whose
author object maps name to the number 42, so the call aborts instead of
returning a record. -/
theorem c1_npm_author_panics :
    getNPMMetadata (Package.mk (gs "left-pad") (gs "1.3.0") false false)
      (.ok { license := [], licenses := [], author := .obj [(gs "name", .num 42)],
             maintainers := [], description := [], repositoryURL := [],
             homepage := [], readme := [] })
      = .error .panic := rfl

/-- C2 counterexample: on a failed registry call the claim allows only the
echoed name, version and ecosystem tag to be non-empty, but the module
resolver also returns its constructed package URL and the source-index
resolver also returns the echoed no-version module name, so the records are
not identity-only. -/
theorem c2_counterexample :
    identityFieldsOnly (getGoModMetadata
        (Package.mk (gs "golang.org/x/mod") (gs "v0.30.0") true false) .failed) = false ∧
    identityFieldsOnly (getPyPI_Metadata
        (Package.mk (gs "requests") (gs ">=2.0.0") false true) .failed) = false := by
  decide

/-- C2 as amended: a resolver whose registry call times out, fails in
transport, or sees a non-200 status returns (it cannot raise) the record
holding exactly the echoed name, version and ecosystem tag together with the
identity-derived extras: the constructed version-info URL for the module
resolver, and the echoed no-version name for the source-index resolver;
every other field is empty. -/
theorem c2_sparse_on_failure (pkg : Package) :
    getGoModMetadata pkg .failed =
      { name := pkg.path, version := pkg.version, license := [], licenseURL := [],
        author := [], description := [], copyright := [],
        packageURL := pkg.path ++ gs "/@v/" ++ pkg.version ++ gs ".info",
        gitHubURL := [], repositoryType := gs "go", repository := [],
        moduleNameNoVer := [] } ∧
    getPyPI_Metadata pkg .failed =
      { name := pkg.path, version := pkg.version, license := [], licenseURL := [],
        author := [], description := [], copyright := [], packageURL := [],
        gitHubURL := [], repositoryType := gs "pypi", repository := [],
        moduleNameNoVer := pkg.path } :=
  ⟨rfl, rfl⟩

/-- C3 counterexample: the claim covers the tilde operator, but the PyPI
cleaning chain never strips a bare tilde, so a constraint starting with one
is returned with the operator still attached. -/
theorem c3_counterexample :
    pypiCleanVersion (gs "~1.2.3") = gs "~1.2.3" ∧
    (gs "~1.2.3" : GoStr) ≠ gs "1.2.3" := by
  decide

/-- C3 as amended: there is no shared normalization.  The PyPI resolver
strips exactly one leading operator among the seven it knows (bare tilde is
not among them) provided the remainder does not itself start with an
operator or an equals sign and the constraint carries no surrounding
whitespace, and then returns the remainder up to the first comma or space;
the npm resolver strips only a leading caret and then a leading tilde, with
no comma or space truncation, and uses its cleaned version in the registry
URL, while the PyPI registry URL ignores the version entirely. -/
theorem c3_version_normalization (op rest vrest path v1 v2 : GoStr) (b1 b2 : Bool)
    (hop : op ∈ pypiOps)
    (hns : ∀ o ∈ pypiOps, o.isPrefixOf rest = false)
    (heq : (gs "=").isPrefixOf rest = false)
    (htrim : goTrimSpace (op ++ rest) = op ++ rest)
    (hv : (gs "~").isPrefixOf vrest = false) :
    pypiCleanVersion (op ++ rest) = specVersionRemainder rest ∧
    npmCleanVersion (gs "^" ++ vrest) = vrest ∧
    npmRequestURL (Package.mk path (gs "^" ++ vrest) b1 b2)
      = gs "https://registry.npmjs.org/" ++ path ++ gs "/" ++ vrest ∧
    pypiRequestURL (Package.mk path v1 b1 b2)
      = pypiRequestURL (Package.mk path v2 b1 b2) := by
  have hnpm : npmCleanVersion (gs "^" ++ vrest) = vrest := by
    rw [npmCleanVersion, stripPre_append, stripPre_of_ne _ _ hv]
  refine ⟨?_, hnpm, ?_, rfl⟩
  · rw [pypiCleanVersion, htrim, pypiOpChain_strips op rest hop hns heq,
      goSplitCh_headD, goSplitCh_headD, takeWhile_comma_space]
  · rw [npmRequestURL]
    simp [hnpm]

/-- C3 witness: the amended statement applied to the constraint
greater-equal 2.0.0 comma less-than 3.0.0 and the npm constraint
caret 1.3.0. -/
theorem c3_version_normalization_witness :
    (gs ">=" ∈ pypiOps) ∧
    (∀ o ∈ pypiOps, o.isPrefixOf (gs "2.0.0,<3.0.0") = false) ∧
    ((gs "=").isPrefixOf (gs "2.0.0,<3.0.0") = false) ∧
    (goTrimSpace (gs ">=" ++ gs "2.0.0,<3.0.0") = gs ">=" ++ gs "2.0.0,<3.0.0") ∧
    ((gs "~").isPrefixOf (gs "1.3.0") = false) ∧
    (pypiCleanVersion (gs ">=" ++ gs "2.0.0,<3.0.0")
      = specVersionRemainder (gs "2.0.0,<3.0.0") ∧
     npmCleanVersion (gs "^" ++ gs "1.3.0") = gs "1.3.0" ∧
     npmRequestURL (Package.mk (gs "left-pad") (gs "^" ++ gs "1.3.0") false false)
       = gs "https://registry.npmjs.org/" ++ gs "left-pad" ++ gs "/" ++ gs "1.3.0" ∧
     pypiRequestURL (Package.mk (gs "left-pad") (gs "1.0") false false)
       = pypiRequestURL (Package.mk (gs "left-pad") (gs "2.0") false false)) :=
  ⟨by decide, by decide, by decide, by decide, by decide,
    c3_version_normalization (gs ">=") (gs "2.0.0,<3.0.0") (gs "1.3.0")
      (gs "left-pad") (gs "1.0") (gs "2.0") false false
      (by decide) (by decide) (by decide) (by decide) (by decide)⟩

/-- C4 counterexample: the claim lists LGPL-3.0 as an already-standardized
identifier that standardization leaves unchanged, but the substring fallback
matches GPL inside LGPL-3.0 and rewrites it to GPL-3.0. -/
theorem c4_counterexample :
    standardizeLicense (gs "LGPL-3.0") = gs "GPL-3.0" ∧
    (gs "GPL-3.0" : GoStr) ≠ gs "LGPL-3.0" := by
  decide

/-- C4 as amended: the standardization step is idempotent on the
already-standardized identifiers MIT, Apache-2.0, BSD-3-Clause, MPL-2.0,
GPL-3.0 and GPL-2.0, but not on identifiers properly containing GPL: the
substring fallback rewrites LGPL-3.0 to GPL-3.0 and LGPL-2.0 to GPL-2.0. -/
theorem c4_standardize_idempotence :
    standardizeLicense (gs "MIT") = gs "MIT" ∧
    standardizeLicense (gs "Apache-2.0") = gs "Apache-2.0" ∧
    standardizeLicense (gs "BSD-3-Clause") = gs "BSD-3-Clause" ∧
    standardizeLicense (gs "MPL-2.0") = gs "MPL-2.0" ∧
    standardizeLicense (gs "GPL-3.0") = gs "GPL-3.0" ∧
    standardizeLicense (gs "GPL-2.0") = gs "GPL-2.0" ∧
    standardizeLicense (gs "LGPL-2.0") = gs "GPL-2.0" := by
  decide

/-- C5 counterexample: the claim says an entry with an empty name is
dropped, but both the package-descriptor maps and the poetry maps emit an
empty-string key verbatim as a record with an empty name. -/
theorem c5_counterexample :
    Package.mk [] (gs "1.0.0") false false ∈
      (parsePackageJSONPure ⟨gs "p", [([], gs "1.0.0")], []⟩).1 ∧
    (Package.mk [] (gs "1.0.0") false false).path = [] ∧
    Package.mk [] (gs "1.0.0") false true ∈
      (parsePyProjectTomlPure ⟨[], [], [], [([], gs "1.0.0")], [], []⟩).1 := by
  decide

/-- C5 as amended: an entry of the PEP 621 project-dependencies list never
yields an empty name, because whitespace-only entries are dropped by the
field splitting and any emitted name is a whitespace-free field; the
map-based conventions instead emit every map entry verbatim, an empty-string
key included. -/
theorem c5_nonempty_names :
    (∀ projDeps pkg, pkg ∈ pep621Packages projDeps → pkg.path ≠ []) ∧
    (∀ (f : PackageJSONFile) (n v : GoStr), (n, v) ∈ f.dependencies →
      Package.mk n v false false ∈ (parsePackageJSONPure f).1) := by
  constructor
  · intro deps pkg hmem
    rw [pep621Packages, List.mem_filterMap] at hmem
    obtain ⟨dep, hdep, hf⟩ := hmem
    cases hgf : goFields dep with
    | nil =>
      rw [hgf] at hf
      exact absurd hf (by simp)
    | cons name restParts =>
      rw [hgf] at hf
      simp only [Option.some.injEq] at hf
      have hmm : name ∈ goFields dep := by
        rw [hgf]
        exact List.mem_cons_self _ _
      have hne : name ≠ [] := goFieldsAux_mem_ne_nil dep [] name hmm
      rw [← hf]
      simpa using hne
  · intro f n v hmem
    show mkNpmPackage (n, v) ∈
      f.dependencies.map mkNpmPackage ++ f.devDependencies.map mkNpmPackage
    exact List.mem_append_left _ (List.mem_map_of_mem mkNpmPackage hmem)

/-- C5 witness: the amended statement at the list holding the single entry
requests and at a descriptor with one lodash dependency. -/
theorem c5_nonempty_names_witness :
    (Package.mk (gs "requests") [] false true).path ≠ [] ∧
    Package.mk (gs "lodash") (gs "4.17.21") false false ∈
      (parsePackageJSONPure ⟨gs "app", [(gs "lodash", gs "4.17.21")], []⟩).1 :=
  ⟨c5_nonempty_names.1 [gs "requests"] (Package.mk (gs "requests") [] false true)
      (by decide),
   c5_nonempty_names.2 ⟨gs "app", [(gs "lodash", gs "4.17.21")], []⟩
      (gs "lodash") (gs "4.17.21") (by decide)⟩

/-- C6: a decoded manifest with zero dependency entries parses to the empty
dependency list and the suffixed project name, for all three parsers, and no
error is returned. -/
theorem c6_zero_dependencies (modPath pkgName poetryN projN : GoStr) :
    parseGoMod (.ok ⟨modPath, []⟩) = .ok ([], modPath ++ gs "-api") ∧
    parsePackageJSON (.ok ⟨pkgName, [], []⟩) = .ok ([], pkgName ++ gs "-ui") ∧
    parsePyProjectToml (.ok ⟨projN, [], poetryN, [], [], []⟩)
      = .ok ([], (if !poetryN.isEmpty then poetryN
          else if !projN.isEmpty then projN else gs "python-project") ++ gs "-py") :=
  ⟨rfl, rfl, rfl⟩

/-- C7 counterexample: the claim expects the entry requests greater-equal
2.0.0 to split into the name requests and the constraint, but the splitting
is on whitespace only, and the entry has none, so the whole string becomes
the name and the constraint is empty. -/
theorem c7_counterexample :
    pep621Packages [gs "requests>=2.0.0"]
      ≠ [Package.mk (gs "requests") (gs ">=2.0.0") false true] ∧
    pep621Packages [gs "requests>=2.0.0"]
      = [Package.mk (gs "requests>=2.0.0") [] false true] := by
  decide

/-- C7 as amended: a project-dependencies entry is split on whitespace runs,
so the whitespace-free entry requests greater-equal 2.0.0 is wholly the name
with an empty constraint, while the same entry with a space after the name
yields the name requests and the constraint. -/
theorem c7_whitespace_split :
    pep621Packages [gs "requests>=2.0.0"]
      = [Package.mk (gs "requests>=2.0.0") [] false true] ∧
    pep621Packages [gs "requests >=2.0.0"]
      = [Package.mk (gs "requests") (gs ">=2.0.0") false true] := by
  decide

/-- C8 counterexample: the claim describes the parsed list as the union of
the two maps, but a pair present in both maps appears twice in the parsed
list, where any union would hold it once. -/
theorem c8_counterexample :
    occurrences (mkNpmPackage (gs "a", gs "1.0.0"))
      (parsePackageJSONPure
        ⟨gs "p", [(gs "a", gs "1.0.0")], [(gs "a", gs "1.0.0")]⟩).1 = 2 := by
  decide

/-- C8 as amended: the parsed list is the concatenation of the records of
the runtime map followed by the records of the development map: every pair
occurs in the parsed list exactly as often as in the two maps together, so a
name present in both maps is represented by two records. -/
theorem c8_concat_counts (f : PackageJSONFile) (e : GoStr × GoStr) :
    occurrences (mkNpmPackage e) (parsePackageJSONPure f).1
      = occurrences e f.dependencies + occurrences e f.devDependencies := by
  show occurrences (mkNpmPackage e)
      (f.dependencies.map mkNpmPackage ++ f.devDependencies.map mkNpmPackage) = _
  rw [occurrences_append, occurrences_map_mkNpm, occurrences_map_mkNpm]

/-- C9 counterexample: the claim says the github check on URLs and the
source/repository check on keys run independently, but an entry whose URL
mentions github ends the scan before its own key is examined: with the
single entry keyed Source, the repository link stays empty although the key
contains source. -/
theorem c9_counterexample :
    scanProjectUrls [(gs "Source", gs "https://github.com/x/y")] [] []
      = (gs "https://github.com/x/y", []) ∧
    goContains (goToLower (gs "Source")) (gs "source") = true := by
  decide

/-- C9 as amended: the two checks share one loop that breaks at the first
URL mentioning github.  With no such URL, the scan leaves the source link
unchanged and the repository link is the key-check fold over all entries;
with such a URL, the scan returns it as source link and only the entries
before it feed the key check, so which links populate depends on map
iteration order. -/
theorem c9_scan_dependence :
    (∀ entries gh repo,
      (∀ e ∈ entries, goContains (goToLower e.2) (gs "github") = false) →
      scanProjectUrls entries gh repo = (gh, repoKeyScan entries repo)) ∧
    (∀ (pre : List (GoStr × GoStr)) key url rest gh repo,
      (∀ e ∈ pre, goContains (goToLower e.2) (gs "github") = false) →
      goContains (goToLower url) (gs "github") = true →
      scanProjectUrls (pre ++ (key, url) :: rest) gh repo
        = (url, repoKeyScan pre repo)) :=
  ⟨scanProjectUrls_no_github, scanProjectUrls_stops⟩

/-- C9 witness: the amended statement at a two-entry map whose second URL
mentions github with mixed case, and at a github-free one-entry map. -/
theorem c9_scan_dependence_witness :
    (∀ e ∈ [(gs "Docs", gs "https://example.org/doc")],
        goContains (goToLower e.2) (gs "github") = false) ∧
    goContains (goToLower (gs "https://GitHub.com/x/y")) (gs "github") = true ∧
    scanProjectUrls ([(gs "Docs", gs "https://example.org/doc")]
        ++ (gs "Source", gs "https://GitHub.com/x/y") :: []) [] []
      = (gs "https://GitHub.com/x/y",
          repoKeyScan [(gs "Docs", gs "https://example.org/doc")] []) ∧
    scanProjectUrls [(gs "Homepage", gs "https://example.org")] (gs "h") (gs "r")
      = (gs "h", repoKeyScan [(gs "Homepage", gs "https://example.org")] (gs "r")) :=
  ⟨by decide, by decide,
   c9_scan_dependence.2 [(gs "Docs", gs "https://example.org/doc")] (gs "Source")
     (gs "https://GitHub.com/x/y") [] [] [] (by decide) (by decide),
   c9_scan_dependence.1 [(gs "Homepage", gs "https://example.org")] (gs "h") (gs "r")
     (by decide)⟩

/-- C10: when the documentation page was fetched and parsed but no
repository selector produced a usable link, a module path containing the
hosting marker makes the resolver set the source URL to exactly the scheme
prefix concatenated with the path. -/
theorem c10_github_url_synthesis (pkg : Package) (doc : GoDevDoc)
    (hrepo : findRepoURL doc.repoHits = [])
    (hpath : goContains pkg.path (gs "github.com/") = true) :
    (getGoModMetadata pkg (.parsed doc)).gitHubURL = gs "https://" ++ pkg.path := by
  show (goModScrape pkg doc).gitHubURL = _
  rw [goModScrape, applyCopyrightStep_gitHubURL, applyAuthorPathStep_gitHubURL,
    applyAuthorSelStep_gitHubURL, applyRepoStep_of_none _ _ hrepo]
  exact applyGhSynthStep_sets pkg.path _
    (by rw [applyDescStep_gitHubURL, applyLicenseStep_gitHubURL]; rfl) hpath

/-- C10 witness: the synthesis at a concrete github-hosted module path and a
page on which every selector missed. -/
theorem c10_github_url_synthesis_witness :
    findRepoURL (GoDevDoc.mk none none [] [] none).repoHits = [] ∧
    goContains (gs "github.com/jsfaint/go-license") (gs "github.com/") = true ∧
    (getGoModMetadata
        (Package.mk (gs "github.com/jsfaint/go-license") (gs "v1.0.0") true false)
        (.parsed (GoDevDoc.mk none none [] [] none))).gitHubURL
      = gs "https://" ++ gs "github.com/jsfaint/go-license" :=
  ⟨rfl, by decide,
   c10_github_url_synthesis
     (Package.mk (gs "github.com/jsfaint/go-license") (gs "v1.0.0") true false)
     (GoDevDoc.mk none none [] [] none) rfl (by decide)⟩

end LicenseFetcher
